import Mathlib

/-!
# Verification of the BookingAPP reservation/availability engine

Shallow embedding of the core logic of the BookingAPP repository:

* `src/Properties/PropertyAvailabilityHelper.ts` (availability calculator),
* `src/services/ReservationService.ts` (reservation service),
* `src/utils/calendar.ts` (calendar projector).

JavaScript `Date` values are modelled as `Int` millisecond timestamps
(UTC; `getTime()`).  Date comparison operators on `Date` coincide with
comparison of these timestamps.  `setHours(0,0,0,0)` is modelled as
flooring to a multiple of `msPerDay` (local timezone taken as UTC).
Asynchronous storage calls are modelled by passing lookup functions in
and returning the list of persistence calls (`StorageOp`) performed.
Each `new Date()` clock read in the source is a separate parameter of
the embedding, in source order.
-/

/-- Milliseconds per day: `1000 * 60 * 60 * 24` as in the source. -/
def msPerDay : Int := 86400000

/-- `ReservationStatus` enum from `src/models/Reservation.ts`. -/
inductive ReservationStatus where
  | pending
  | confirmed
  | cancelled
  | completed
deriving DecidableEq, Repr

/-- `AvailabilityStatus` enum from `src/Properties/Property.ts`. -/
inductive AvailabilityStatus where
  | available
  | unavailable
  | reserved
  | maintenance
deriving DecidableEq, Repr

/-- `Reservation` interface from `src/models/Reservation.ts`.
Dates are millisecond timestamps. -/
structure Reservation where
  id : String
  clientId : String
  propertyId : Option String
  date : Int
  endDate : Int
  time : String
  numberOfGuests : Int
  status : ReservationStatus
  notes : Option String
  createdAt : Int
  updatedAt : Int
deriving DecidableEq, Repr

/-- `PropertySpecifications` from `src/Properties/Property.ts`. -/
structure PropertySpecifications where
  area : Option Int := none
  capacity : Option Int := none
  bedrooms : Option Int := none
  bathrooms : Option Int := none
  amenities : Option (List String) := none
  location : Option String := none
deriving DecidableEq, Repr

/-- `Property` interface from `src/Properties/Property.ts` (the derived
`availabilityInfo` cache field is omitted; no claim reads it). -/
structure Property where
  id : String
  name : String
  description : Option String := none
  specifications : PropertySpecifications := {}
  price : Int
  availability : AvailabilityStatus
  createdAt : Int
  updatedAt : Int
deriving DecidableEq, Repr

/-- `Client` interface from `src/models/Client.ts`. -/
structure Client where
  id : String
  name : String
  email : String
  phone : String
  createdAt : Int
  updatedAt : Int
deriving DecidableEq, Repr

/-- `CurrentBookingInfo` from `src/Properties/Property.ts`. -/
structure CurrentBookingInfo where
  reservationId : String
  clientId : String
  checkInDate : Int
  checkOutDate : Int
  durationDays : Int
  status : ReservationStatus
deriving DecidableEq, Repr

/-- `PropertyAvailabilityInfo` from `src/Properties/Property.ts`. -/
structure PropertyAvailabilityInfo where
  isAvailable : Bool
  currentBooking : Option CurrentBookingInfo := none
  nextAvailableDate : Option Int := none
  bookedUntil : Option Int := none
deriving DecidableEq, Repr

/-- `calculateDaysBetween` (`PropertyAvailabilityHelper.ts:159-162`):
`Math.ceil((endDate - startDate) / msPerDay)`, i.e. the ceiling of the
exact rational day difference.  `-(-a / b)` is the ceiling of `a / b`
for `b > 0` since `Int` division rounds down. -/
def calculateDaysBetween (startDate endDate : Int) : Int :=
  -(-(endDate - startDate) / msPerDay)

/-- Insertion of a reservation into a list sorted ascending by `date`,
placing it before the first element with a greater-or-equal key.  Used
to model the (stable, ES2019) `Array.prototype.sort` with comparator
`(a, b) => a.date - b.date` in `PropertyAvailabilityHelper.ts:30-32`. -/
def sortedInsert (r : Reservation) : List Reservation → List Reservation
  | [] => [r]
  | h :: t => if r.date ≤ h.date then r :: h :: t else h :: sortedInsert r t

/-- Stable sort by check-in date (`PropertyAvailabilityHelper.ts:30-32`). -/
def sortByDate (l : List Reservation) : List Reservation :=
  l.foldr sortedInsert []

/-- The filter predicate of `PropertyAvailabilityHelper.ts:21-27`:
same property, status `confirmed` or `pending`, and `endDate >= now`. -/
def isActiveFor (p : Property) (now : Int) (r : Reservation) : Bool :=
  decide (r.propertyId = some p.id ∧
    (r.status = ReservationStatus.confirmed ∨ r.status = ReservationStatus.pending) ∧
    now ≤ r.endDate)

/-- `activeReservations` after filtering (`PropertyAvailabilityHelper.ts:21-27`). -/
def activeFilter (p : Property) (rs : List Reservation) (now : Int) : List Reservation :=
  rs.filter (isActiveFor p now)

/-- `activeReservations` after the in-place sort (`PropertyAvailabilityHelper.ts:30-32`). -/
def activeSorted (p : Property) (rs : List Reservation) (now : Int) : List Reservation :=
  sortByDate (activeFilter p rs now)

/-- `currentBooking` (`PropertyAvailabilityHelper.ts:35-39`): first active
reservation whose interval `[date, endDate]` contains `now`. -/
def currentBookingOf (p : Property) (rs : List Reservation) (now : Int) : Option Reservation :=
  (activeSorted p rs now).find? fun r => decide (r.date ≤ now ∧ now ≤ r.endDate)

/-- `nextBooking` (`PropertyAvailabilityHelper.ts:42-46`): first active
reservation with `date > now`, or `endDate > now` when there is no
current booking. -/
def nextBookingOf (p : Property) (rs : List Reservation) (now : Int) : Option Reservation :=
  (activeSorted p rs now).find? fun r =>
    decide (now < r.date ∨ (now < r.endDate ∧ currentBookingOf p rs now = none))

/-- The `CurrentBookingInfo` record built at
`PropertyAvailabilityHelper.ts:53-64` for a current booking. -/
def mkCurrentBookingInfo (r : Reservation) : CurrentBookingInfo :=
  { reservationId := r.id
    clientId := r.clientId
    checkInDate := r.date
    checkOutDate := r.endDate
    durationDays := calculateDaysBetween r.date r.endDate
    status := r.status }

/-- `calculateAvailabilityInfo` (`PropertyAvailabilityHelper.ts:14-99`),
with `now` (the single `new Date()` read at line 18) as a parameter.
The source initializes
`isAvailable = !currentBooking && availability !== maintenance` and then
mutates the record branch by branch; each branch below is the final
record state of the corresponding source path.  The source compares
`nextBooking !== currentBooking` by object identity; value equality is
used here (the two `find?` results can only be the same value when they
are the same element, their predicates being incompatible for one
element once a current booking exists). -/
def calculateAvailabilityInfo (p : Property) (rs : List Reservation) (now : Int) :
    PropertyAvailabilityInfo :=
  match currentBookingOf p rs now, nextBookingOf p rs now with
  | some cb, next =>
      { isAvailable := false
        currentBooking := some (mkCurrentBookingInfo cb)
        bookedUntil := some cb.endDate
        nextAvailableDate :=
          match next with
          | some nb =>
              if nb = cb then some (cb.endDate + msPerDay)
              else if cb.endDate < nb.endDate then some (cb.endDate + msPerDay)
              else none
          | none => some (cb.endDate + msPerDay) }
  | none, some nb =>
      if now < nb.date then
        { isAvailable := true
          currentBooking := none
          bookedUntil := none
          nextAvailableDate := some nb.date }
      else
        { isAvailable := decide (p.availability ≠ AvailabilityStatus.maintenance)
          currentBooking := none
          bookedUntil := none
          nextAvailableDate := none }
  | none, none =>
      { isAvailable := decide (p.availability ≠ AvailabilityStatus.maintenance)
        currentBooking := none
        bookedUntil := none
        nextAvailableDate := some now }

/-! ## Reservation Service (`src/services/ReservationService.ts`) -/

/-- `CreateReservationDTO` from `src/models/Reservation.ts`. -/
structure CreateReservationDTO where
  clientId : String
  propertyId : Option String := none
  date : Int
  endDate : Int
  time : String
  numberOfGuests : Int
  notes : Option String := none
deriving DecidableEq, Repr

/-- `UpdateReservationDTO` from `src/models/Reservation.ts`: every field
optional; an absent field does not override the stored value. -/
structure UpdateReservationDTO where
  propertyId : Option String := none
  date : Option Int := none
  endDate : Option Int := none
  time : Option String := none
  numberOfGuests : Option Int := none
  status : Option ReservationStatus := none
  notes : Option String := none
deriving DecidableEq, Repr

/-- A persistence call made by the service on the storage interface. -/
inductive StorageOp where
  | saveReservation (r : Reservation)
  | updateReservationOp (id : String) (r : Reservation)
deriving DecidableEq, Repr

instance : DecidableEq (Except String Reservation) := fun a b =>
  match a, b with
  | Except.ok x, Except.ok y =>
      if h : x = y then isTrue (by rw [h]) else isFalse (by intro hc; cases hc; exact h rfl)
  | Except.error x, Except.error y =>
      if h : x = y then isTrue (by rw [h]) else isFalse (by intro hc; cases hc; exact h rfl)
  | Except.ok _, Except.error _ => isFalse (by intro hc; cases hc)
  | Except.error _, Except.ok _ => isFalse (by intro hc; cases hc)

namespace ReservationService

/-- `createReservation` (`ReservationService.ts:20-64`).  `getClient`
models `storage.getClient`, `genId` the `generateId()` call, and `now`
the single `new Date()` read at line 28.  The result pairs the returned
value (or thrown error message) with the persistence calls performed. -/
def createReservation (getClient : String → Option Client) (genId : String) (now : Int)
    (dto : CreateReservationDTO) : Except String Reservation × List StorageOp :=
  match getClient dto.clientId with
  | none => (Except.error ("Client with id " ++ dto.clientId ++ " not found"), [])
  | some _ =>
      if dto.date < now then
        (Except.error "Cannot create reservation for a past date", [])
      else if dto.endDate < now then
        (Except.error "Cannot create reservation with end date in the past", [])
      else if dto.endDate ≤ dto.date then
        (Except.error "End date must be after start date", [])
      else if dto.numberOfGuests ≤ 0 then
        (Except.error "Number of guests must be greater than 0", [])
      else
        let reservation : Reservation :=
          { id := genId
            clientId := dto.clientId
            propertyId := dto.propertyId
            date := dto.date
            endDate := dto.endDate
            time := dto.time
            numberOfGuests := dto.numberOfGuests
            status := ReservationStatus.pending
            notes := dto.notes
            createdAt := now
            updatedAt := now }
        (Except.ok reservation, [StorageOp.saveReservation reservation])

/-- `{...reservation, ...dto, updatedAt: new Date()}`
(`ReservationService.ts:189-193`): patch fields present in the DTO
override the stored record, and `updatedAt` is stamped with `now`. -/
def applyPatch (r : Reservation) (dto : UpdateReservationDTO) (now : Int) : Reservation :=
  { id := r.id
    clientId := r.clientId
    propertyId := dto.propertyId.elim r.propertyId some
    date := dto.date.getD r.date
    endDate := dto.endDate.getD r.endDate
    time := dto.time.getD r.time
    numberOfGuests := dto.numberOfGuests.getD r.numberOfGuests
    status := dto.status.getD r.status
    notes := dto.notes.elim r.notes some
    updatedAt := now
    createdAt := r.createdAt }

/-- `updateReservation` (`ReservationService.ts:157-197`).  The source
reads the clock separately in each validation step: `now1` is the
`new Date()` of the start-date check (line 167), `now2` that of the
end-date check (line 173), and `now3` the `updatedAt` stamp (line 192). -/
def updateReservation (getReservation : String → Option Reservation) (id : String)
    (dto : UpdateReservationDTO) (now1 now2 now3 : Int) :
    Except String Reservation × List StorageOp :=
  match getReservation id with
  | none => (Except.error ("Reservation with id " ++ id ++ " not found"), [])
  | some reservation =>
      if (dto.date.map fun d => decide (d < now1)).getD false then
        (Except.error "Cannot update reservation to a past date", [])
      else if (dto.endDate.map fun e => decide (e < now2)).getD false then
        (Except.error "Cannot update reservation with end date in the past", [])
      else if (dto.endDate.map fun e => decide (e ≤ dto.date.getD reservation.date)).getD false then
        (Except.error "End date must be after start date", [])
      else if (dto.numberOfGuests.map fun g => decide (g ≤ 0)).getD false then
        (Except.error "Number of guests must be greater than 0", [])
      else
        let updated := applyPatch reservation dto now3
        (Except.ok updated, [StorageOp.updateReservationOp id updated])

/-- `confirmReservation` (`ReservationService.ts:214-216`): delegates to
`updateReservation` with a status-only patch. -/
def confirmReservation (getReservation : String → Option Reservation) (id : String)
    (now1 now2 now3 : Int) : Except String Reservation × List StorageOp :=
  updateReservation getReservation id { status := some ReservationStatus.confirmed } now1 now2 now3

/-- `cancelReservation` (`ReservationService.ts:221-223`): delegates to
`updateReservation` with a status-only patch. -/
def cancelReservation (getReservation : String → Option Reservation) (id : String)
    (now1 now2 now3 : Int) : Except String Reservation × List StorageOp :=
  updateReservation getReservation id { status := some ReservationStatus.cancelled } now1 now2 now3

/-- Modelled from the spec: the single-snapshot update validator of
spec section 4.1 (`validateUpdate`), in which every past-date check of
one `updateReservation` call compares against the same `now` snapshot
taken once at the start of the call (the spec's edge-case policy), and
the same snapshot stamps `updatedAt`.  Used to compare the spec's
snapshot policy with the source's per-check clock reads. -/
def updateReservationSingleNow (getReservation : String → Option Reservation) (id : String)
    (dto : UpdateReservationDTO) (now : Int) : Except String Reservation × List StorageOp :=
  match getReservation id with
  | none => (Except.error ("Reservation with id " ++ id ++ " not found"), [])
  | some reservation =>
      if (dto.date.map fun d => decide (d < now)).getD false then
        (Except.error "Cannot update reservation to a past date", [])
      else if (dto.endDate.map fun e => decide (e < now)).getD false then
        (Except.error "Cannot update reservation with end date in the past", [])
      else if (dto.endDate.map fun e => decide (e ≤ dto.date.getD reservation.date)).getD false then
        (Except.error "End date must be after start date", [])
      else if (dto.numberOfGuests.map fun g => decide (g ≤ 0)).getD false then
        (Except.error "Number of guests must be greater than 0", [])
      else
        let updated := applyPatch reservation dto now
        (Except.ok updated, [StorageOp.updateReservationOp id updated])

end ReservationService

/-! ## Calendar Projector (`src/utils/calendar.ts`) -/

/-- `CalendarDay` interface from `src/utils/calendar.ts`. -/
structure CalendarDay where
  date : Int
  isAvailable : Bool
  isReserved : Bool
  reservation : Option Reservation
  isToday : Bool
  isPast : Bool
deriving DecidableEq, Repr

/-- `setHours(0,0,0,0)`: floor a timestamp to midnight (timezone taken
as UTC), i.e. to the greatest multiple of `msPerDay` not above it. -/
def normalizeDay (t : Int) : Int :=
  msPerDay * (t / msPerDay)

/-- The reservation-matching predicate of `calendar.ts:41-47`: the day
lies in the half-open interval `[date, endDate)` with both reservation
bounds normalized to midnight. -/
def calendarMatches (day : Int) (r : Reservation) : Bool :=
  decide (normalizeDay r.date ≤ day ∧ day < normalizeDay r.endDate)

/-- One iteration of the `generateCalendar` loop body
(`calendar.ts:33-59`) for iteration index `i`: the day is
`startDate + i` days, normalized to midnight. -/
def calendarDayAt (p : Property) (rs : List Reservation) (startDate : Int) (todayRaw : Int)
    (i : Nat) : CalendarDay :=
  { date := normalizeDay (startDate + (i : Int) * msPerDay)
    isAvailable := !decide (normalizeDay (startDate + (i : Int) * msPerDay) <
        normalizeDay todayRaw) &&
      !(rs.find? (calendarMatches (normalizeDay (startDate + (i : Int) * msPerDay)))).isSome &&
      decide (p.availability = AvailabilityStatus.available)
    isReserved := (rs.find? (calendarMatches (normalizeDay (startDate + (i : Int) * msPerDay)))).isSome
    reservation := rs.find? (calendarMatches (normalizeDay (startDate + (i : Int) * msPerDay)))
    isToday := decide (normalizeDay (startDate + (i : Int) * msPerDay) = normalizeDay todayRaw)
    isPast := decide (normalizeDay (startDate + (i : Int) * msPerDay) < normalizeDay todayRaw) }

/-- `generateCalendar` (`calendar.ts:20-63`).  The loop runs one
iteration per day from `startDate` (exclusive upper bound
`startDate + weeks * 7` days) in steps of one day, so exactly
`weeks * 7` iterations; `todayRaw` is the `new Date()` read at
line 27. -/
def generateCalendar (p : Property) (rs : List Reservation) (startDate : Int) (weeks : Nat)
    (todayRaw : Int) : List CalendarDay :=
  (List.range (weeks * 7)).map (calendarDayAt p rs startDate todayRaw)

/-- The first reservation, in input order, whose normalized half-open
interval contains the day — the spec's words for the `reservation` field
of a calendar day (spec section 4.4), written as a direct recursion to
compare against the source's `find?`. -/
def specFirstReservation (day : Int) : List Reservation → Option Reservation
  | [] => none
  | r :: t =>
      if normalizeDay r.date ≤ day ∧ day < normalizeDay r.endDate then some r
      else specFirstReservation day t

/-- A reservation is inactive (spec section 3): status `cancelled` or
`completed`, or its `endDate` has already passed. -/
def isInactive (now : Int) (r : Reservation) : Bool :=
  decide (r.status = ReservationStatus.cancelled ∨ r.status = ReservationStatus.completed ∨
    r.endDate < now)

/-! ## Concrete fixtures used by witnesses and counterexamples -/

/-- A property with `availability = available`. -/
def propAvailable : Property :=
  { id := "p1", name := "Prop One", price := 100,
    availability := AvailabilityStatus.available, createdAt := 0, updatedAt := 0 }

/-- A property with `availability = maintenance`. -/
def propMaintenance : Property :=
  { propAvailable with availability := AvailabilityStatus.maintenance }

/-- A template reservation for property `p1`. -/
def baseReservation : Reservation :=
  { id := "r1", clientId := "c1", propertyId := some "p1", date := 0, endDate := 0,
    time := "14:00", numberOfGuests := 2, status := ReservationStatus.pending,
    notes := none, createdAt := 0, updatedAt := 0 }

/-- A confirmed reservation entirely in the future of `now = 100`. -/
def futureConfirmed : Reservation :=
  { baseReservation with date := 200, endDate := 300, status := ReservationStatus.confirmed }

/-- A confirmed reservation whose interval contains `now = 0`. -/
def currentConfirmed : Reservation :=
  { baseReservation with date := -10, endDate := 100, status := ReservationStatus.confirmed }

/-- A confirmed reservation starting after `now = 0` but ending before
`currentConfirmed` does (fully overlapped by it). -/
def overlapNext : Reservation :=
  { baseReservation with
      id := "r2"
      date := 5
      endDate := 50
      status := ReservationStatus.confirmed }

/-- A cancelled reservation covering calendar days 2 and 3 of the epoch. -/
def cancelledCovering : Reservation :=
  { baseReservation with
      date := 2 * msPerDay
      endDate := 4 * msPerDay
      status := ReservationStatus.cancelled }

/-- A concrete client. -/
def cexClient : Client :=
  { id := "c1", name := "Ann", email := "ann@example.com", phone := "123",
    createdAt := 0, updatedAt := 0 }

/-- A client lookup that finds `cexClient` for every identifier. -/
def cexGetClient : String → Option Client := fun _ => some cexClient

/-- A stored reservation found under id `r1`. -/
def storedReservation : Reservation :=
  { baseReservation with date := 50, endDate := 60 }

/-- A reservation lookup with exactly `storedReservation` under `r1`. -/
def cexGetReservation : String → Option Reservation :=
  fun i => if i = "r1" then some storedReservation else none

/-- A valid creation request at `now = 0`. -/
def cdtoValid : CreateReservationDTO :=
  { clientId := "c1", date := 10, endDate := 20, time := "14:00", numberOfGuests := 2 }

/-- A creation request with `endDate ≤ date` whose `endDate` is in the
past of `now = 100`. -/
def cdtoPastEnd : CreateReservationDTO :=
  { clientId := "c1", date := 200, endDate := 50, time := "14:00", numberOfGuests := 2 }

/-- A creation request with `endDate ≤ date`, both in the future of `now = 0`. -/
def cdtoRange : CreateReservationDTO :=
  { clientId := "c1", date := 200, endDate := 150, time := "14:00", numberOfGuests := 2 }

/-- An update patch with `endDate ≤ date`, both in the future of `now = 0`. -/
def udtoRange : UpdateReservationDTO := { date := some 200, endDate := some 150 }

/-- An update patch whose dates are valid at clock value 100 but whose
`endDate` is in the past at clock value 110. -/
def udtoClocks : UpdateReservationDTO := { date := some 100, endDate := some 105 }

/-- A status-only update patch. -/
def udtoStatusOnly : UpdateReservationDTO := { status := some ReservationStatus.completed }

/-! ## Helper lemmas -/

/-- `calculateDaysBetween` is non-negative for ordered dates. -/
lemma calculateDaysBetween_nonneg (s e : Int) (h : s ≤ e) : 0 ≤ calculateDaysBetween s e := by
  unfold calculateDaysBetween msPerDay
  omega

/-- `calculateDaysBetween` is at least 1 on a strictly positive interval. -/
lemma calculateDaysBetween_pos (s e : Int) (h : s < e) : 1 ≤ calculateDaysBetween s e := by
  unfold calculateDaysBetween msPerDay
  omega

lemma mem_sortedInsert (a r : Reservation) : ∀ l, a ∈ sortedInsert r l ↔ a = r ∨ a ∈ l
  | [] => by simp [sortedInsert]
  | h :: t => by
      simp only [sortedInsert]
      split
      · simp [List.mem_cons]
      · simp only [List.mem_cons, mem_sortedInsert a r t]
        tauto

lemma mem_sortByDate (a : Reservation) : ∀ l, a ∈ sortByDate l ↔ a ∈ l
  | [] => Iff.rfl
  | h :: t => by
      show a ∈ sortedInsert h (sortByDate t) ↔ _
      simp only [mem_sortedInsert, mem_sortByDate a t, List.mem_cons]

/-- An element of the active (filtered, sorted) list passed the filter
predicate of `PropertyAvailabilityHelper.ts:21-27`. -/
lemma of_mem_activeSorted {p : Property} {rs : List Reservation} {now : Int} {r : Reservation}
    (h : r ∈ activeSorted p rs now) : isActiveFor p now r = true := by
  unfold activeSorted at h
  rw [mem_sortByDate] at h
  exact (List.mem_filter.mp h).2

/-- An active reservation is not inactive. -/
lemma isActiveFor_not_isInactive {p : Property} {now : Int} {r : Reservation}
    (h : isActiveFor p now r = true) : isInactive now r = false := by
  simp only [isActiveFor, decide_eq_true_eq] at h
  obtain ⟨-, hst, hend⟩ := h
  simp only [isInactive, decide_eq_false_iff_not]
  rcases hst with h | h <;> simp [h] <;> omega

/-- Removing inactive reservations does not change the active filter. -/
lemma activeFilter_removeInactive (p : Property) (now : Int) :
    ∀ rs : List Reservation,
      activeFilter p (rs.filter fun r => !isInactive now r) now = activeFilter p rs now
  | [] => rfl
  | a :: t => by
      have ih := activeFilter_removeInactive p now t
      unfold activeFilter at ih ⊢
      by_cases ha : isActiveFor p now a = true
      · have hi : isInactive now a = false := isActiveFor_not_isInactive ha
        simp [List.filter_cons, ha, hi, ih]
      · rw [Bool.not_eq_true] at ha
        by_cases hi : isInactive now a = true
        · simp [List.filter_cons, ha, hi, ih]
        · rw [Bool.not_eq_true] at hi
          simp [List.filter_cons, ha, hi, ih]

lemma activeSorted_removeInactive (p : Property) (now : Int) (rs : List Reservation) :
    activeSorted p (rs.filter fun r => !isInactive now r) now = activeSorted p rs now := by
  unfold activeSorted
  rw [activeFilter_removeInactive]

lemma currentBookingOf_removeInactive (p : Property) (now : Int) (rs : List Reservation) :
    currentBookingOf p (rs.filter fun r => !isInactive now r) now = currentBookingOf p rs now := by
  unfold currentBookingOf
  rw [activeSorted_removeInactive]

lemma nextBookingOf_removeInactive (p : Property) (now : Int) (rs : List Reservation) :
    nextBookingOf p (rs.filter fun r => !isInactive now r) now = nextBookingOf p rs now := by
  unfold nextBookingOf
  simp only [activeSorted_removeInactive, currentBookingOf_removeInactive]

/-- If there is no current booking the result's `currentBooking` field is empty. -/
lemma calculateAvailabilityInfo_currentBooking_of_none {p : Property} {rs : List Reservation}
    {now : Int} (h : currentBookingOf p rs now = none) :
    (calculateAvailabilityInfo p rs now).currentBooking = none := by
  unfold calculateAvailabilityInfo
  rw [h]
  cases nextBookingOf p rs now with
  | none => rfl
  | some nb =>
      by_cases hd : now < nb.date <;> simp [hd]

/-! ## Claim C1 — maintenance forcing -/

/-- C1 (amended): for a property whose availability is `maintenance`,
`calculateAvailabilityInfo` returns `isAvailable = false` whenever there
is a current booking or no upcoming booking; but when there is no
current booking and some next active booking starts after `now`, the
future-booking branch overwrites the maintenance default and returns
`isAvailable = true`. -/
theorem calculateAvailabilityInfo_maintenance (p : Property) (rs : List Reservation) (now : Int)
    (hm : p.availability = AvailabilityStatus.maintenance) :
    (calculateAvailabilityInfo p rs now).isAvailable = true ↔
      (currentBookingOf p rs now = none ∧
        (nextBookingOf p rs now).any (fun nb => decide (now < nb.date)) = true) := by
  unfold calculateAvailabilityInfo
  cases hc : currentBookingOf p rs now with
  | some cb => simp
  | none =>
      cases hn : nextBookingOf p rs now with
      | none => simp [hm]
      | some nb =>
          by_cases hd : now < nb.date <;> simp [hd, hm, Option.any]

/-- C1 counterexample: a `maintenance` property with a single future
confirmed reservation is reported available, refuting "always returns
`isAvailable = false` regardless of reservations". -/
theorem calculateAvailabilityInfo_maintenance_cex :
    propMaintenance.availability = AvailabilityStatus.maintenance ∧
    (calculateAvailabilityInfo propMaintenance [futureConfirmed] 100).isAvailable = true := by
  decide

/-- C1 witness: with no reservations at all, the amended theorem yields
`isAvailable = false` for a maintenance property. -/
theorem calculateAvailabilityInfo_maintenance_witness :
    (calculateAvailabilityInfo propMaintenance [] 5).isAvailable = false := by
  have h := calculateAvailabilityInfo_maintenance propMaintenance [] 5 rfl
  by_contra hb
  rw [Bool.not_eq_false] at hb
  exact absurd (h.mp hb) (by decide)

/-! ## Claim C2 — result for a current booking -/

/-- C2 (amended): when a current booking exists the result has
`isAvailable = false`, `bookedUntil` equal to the booking's `endDate`,
and the booking info record; `nextAvailableDate` equals
`endDate + 1 day` when there is no next booking or the next booking ends
after the current one, but it is left unset when a next booking exists
whose `endDate` does not exceed the current booking's `endDate`. -/
theorem calculateAvailabilityInfo_currentBooking (p : Property) (rs : List Reservation)
    (now : Int) (cb : Reservation) (h : currentBookingOf p rs now = some cb) :
    (calculateAvailabilityInfo p rs now).isAvailable = false ∧
    (calculateAvailabilityInfo p rs now).bookedUntil = some cb.endDate ∧
    (calculateAvailabilityInfo p rs now).currentBooking = some (mkCurrentBookingInfo cb) ∧
    (calculateAvailabilityInfo p rs now).nextAvailableDate =
      (match nextBookingOf p rs now with
       | some nb =>
           if nb = cb then some (cb.endDate + msPerDay)
           else if cb.endDate < nb.endDate then some (cb.endDate + msPerDay)
           else none
       | none => some (cb.endDate + msPerDay)) := by
  unfold calculateAvailabilityInfo
  rw [h]
  cases nextBookingOf p rs now with
  | none => exact ⟨rfl, rfl, rfl, rfl⟩
  | some nb => exact ⟨rfl, rfl, rfl, rfl⟩

/-- C2 counterexample: with a current booking `[-10, 100]` and a next
booking `[5, 50]` fully overlapped by it (at `now = 0`),
`nextAvailableDate` is left unset instead of `endDate + 1 day`, refuting
"nextAvailableDate equal to that booking's endDate plus one day, whether
or not a next booking exists". -/
theorem calculateAvailabilityInfo_currentBooking_cex :
    currentBookingOf propAvailable [currentConfirmed, overlapNext] 0 = some currentConfirmed ∧
    (calculateAvailabilityInfo propAvailable [currentConfirmed, overlapNext] 0).nextAvailableDate
      = none := by
  decide

/-- C2 witness: with a single current booking the amended theorem gives
`bookedUntil = some 100` and `nextAvailableDate = some (100 + 1 day)`. -/
theorem calculateAvailabilityInfo_currentBooking_witness :
    (calculateAvailabilityInfo propAvailable [currentConfirmed] 0).isAvailable = false ∧
    (calculateAvailabilityInfo propAvailable [currentConfirmed] 0).bookedUntil = some 100 ∧
    (calculateAvailabilityInfo propAvailable [currentConfirmed] 0).nextAvailableDate =
      some (100 + msPerDay) := by
  have h := calculateAvailabilityInfo_currentBooking propAvailable [currentConfirmed] 0
    currentConfirmed (by decide)
  refine ⟨h.1, h.2.1, ?_⟩
  rw [h.2.2.2]
  decide

/-! ## Claim C7 — duration is a non-negative ceiling -/

/-- C7: every `durationDays` the availability calculator reports equals
`ceil((endDate - date) / msPerDay)`; it is non-negative (even for a
degenerate stored interval) and at least 1 whenever the current
booking's interval is strictly positive.  The calculator itself is a
total function, so it cannot raise. -/
theorem calculateAvailabilityInfo_durationDays (p : Property) (rs : List Reservation)
    (now : Int) (cb : CurrentBookingInfo)
    (h : (calculateAvailabilityInfo p rs now).currentBooking = some cb) :
    cb.durationDays = calculateDaysBetween cb.checkInDate cb.checkOutDate ∧
    0 ≤ cb.durationDays ∧
    (cb.checkInDate < cb.checkOutDate → 1 ≤ cb.durationDays) := by
  cases hc : currentBookingOf p rs now with
  | none =>
      rw [calculateAvailabilityInfo_currentBooking_of_none hc] at h
      exact absurd h (by simp)
  | some res =>
      have h2 := (calculateAvailabilityInfo_currentBooking p rs now res hc).2.2.1
      rw [h2, Option.some_inj] at h
      subst h
      have hpred := List.find?_some hc
      rw [decide_eq_true_eq] at hpred
      refine ⟨rfl, ?_, ?_⟩
      · exact calculateDaysBetween_nonneg _ _ (by omega)
      · intro hlt
        exact calculateDaysBetween_pos _ _ hlt

/-- C7 witness: for a concrete current booking of a strictly positive
interval, the duration is the ceiling value, non-negative, and at
least 1. -/
theorem calculateAvailabilityInfo_durationDays_witness :
    (mkCurrentBookingInfo currentConfirmed).durationDays =
      calculateDaysBetween (mkCurrentBookingInfo currentConfirmed).checkInDate
        (mkCurrentBookingInfo currentConfirmed).checkOutDate ∧
    0 ≤ (mkCurrentBookingInfo currentConfirmed).durationDays ∧
    1 ≤ (mkCurrentBookingInfo currentConfirmed).durationDays := by
  have h := calculateAvailabilityInfo_durationDays propAvailable [currentConfirmed] 0
    (mkCurrentBookingInfo currentConfirmed) (by decide)
  exact ⟨h.1, h.2.1, h.2.2 (by decide)⟩

/-! ## Claim C3 — valid creation requests succeed -/

/-- C3: for every creation request whose client exists, with
`start < end`, neither date in the past of the `now` snapshot, and
`guestCount ≥ 1`, `createReservation` returns a reservation with
status `pending`, `createdAt = updatedAt = now`, and persists exactly
that reservation (a single `saveReservation` call). -/
theorem createReservation_valid (getClient : String → Option Client) (genId : String)
    (now : Int) (dto : CreateReservationDTO) (c : Client)
    (hclient : getClient dto.clientId = some c)
    (hdate : now ≤ dto.date) (hend : now ≤ dto.endDate)
    (hrange : dto.date < dto.endDate) (hguests : 1 ≤ dto.numberOfGuests) :
    ∃ r : Reservation,
      ReservationService.createReservation getClient genId now dto =
        (Except.ok r, [StorageOp.saveReservation r]) ∧
      r.status = ReservationStatus.pending ∧ r.createdAt = now ∧ r.updatedAt = now := by
  refine ⟨{ id := genId, clientId := dto.clientId, propertyId := dto.propertyId,
            date := dto.date, endDate := dto.endDate, time := dto.time,
            numberOfGuests := dto.numberOfGuests, status := ReservationStatus.pending,
            notes := dto.notes, createdAt := now, updatedAt := now }, ?_, rfl, rfl, rfl⟩
  unfold ReservationService.createReservation
  rw [hclient]
  rw [if_neg (by omega), if_neg (by omega), if_neg (by omega), if_neg (by omega)]

/-- C3 witness: a concrete valid request at `now = 0` succeeds with
status `pending` and timestamps `0`. -/
theorem createReservation_valid_witness :
    ∃ r : Reservation,
      ReservationService.createReservation cexGetClient "gen-1" 0 cdtoValid =
        (Except.ok r, [StorageOp.saveReservation r]) ∧
      r.status = ReservationStatus.pending ∧ r.createdAt = 0 ∧ r.updatedAt = 0 :=
  createReservation_valid cexGetClient "gen-1" 0 cdtoValid cexClient rfl
    (by decide) (by decide) (by decide) (by decide)

/-! ## Claim C4 — end ≤ start requests fail without persisting -/

/-- C4 (amended): for every request supplying both dates with
`end ≤ start`, `createReservation` (client existing) and
`updateReservation` (reservation existing) fail and make no persistence
call; the failure is `InvalidRangeError` ("End date must be after start
date") when neither supplied date is in the past of the clock values
read, and otherwise a past-date error fires first. -/
theorem reservation_invalidRange (getClient : String → Option Client)
    (getReservation : String → Option Reservation) (genId : String)
    (now now1 now2 now3 : Int) (id : String)
    (cdto : CreateReservationDTO) (udto : UpdateReservationDTO)
    (c : Client) (r0 : Reservation) (s e : Int)
    (hc : getClient cdto.clientId = some c)
    (hcr : cdto.endDate ≤ cdto.date)
    (hr : getReservation id = some r0)
    (hs : udto.date = some s) (he : udto.endDate = some e) (hue : e ≤ s) :
    (∃ msg, ReservationService.createReservation getClient genId now cdto =
      (Except.error msg, [])) ∧
    (∃ msg, ReservationService.updateReservation getReservation id udto now1 now2 now3 =
      (Except.error msg, [])) ∧
    (now ≤ cdto.date → now ≤ cdto.endDate →
      ReservationService.createReservation getClient genId now cdto =
        (Except.error "End date must be after start date", [])) ∧
    (now1 ≤ s → now2 ≤ e →
      ReservationService.updateReservation getReservation id udto now1 now2 now3 =
        (Except.error "End date must be after start date", [])) := by
  refine ⟨?_, ?_, ?_, ?_⟩
  · unfold ReservationService.createReservation
    rw [hc]
    split_ifs with h1 h2 h3 h4 <;> first | exact ⟨_, rfl⟩ | omega
  · unfold ReservationService.updateReservation
    rw [hr]
    simp only [hs, he, Option.map_some', Option.getD_some]
    split_ifs with h1 h2 h3 h4 <;>
      first
        | exact ⟨_, rfl⟩
        | (simp only [decide_eq_true_eq] at h3; omega)
  · intro hd he2
    unfold ReservationService.createReservation
    rw [hc]
    rw [if_neg (by omega), if_neg (by omega), if_pos hcr]
  · intro hd he2
    unfold ReservationService.updateReservation
    rw [hr]
    simp only [hs, he, Option.map_some', Option.getD_some]
    rw [if_neg (by simp only [decide_eq_true_eq]; omega),
      if_neg (by simp only [decide_eq_true_eq]; omega),
      if_pos (decide_eq_true hue)]

/-- C4 counterexample: `cdtoPastEnd` supplies both dates with
`endDate ≤ date`, yet at `now = 100` (its `endDate` being in the past)
`createReservation` fails with the past-end-date error, not with
`InvalidRangeError`, so "fails with InvalidRangeError" does not hold for
every such request. -/
theorem reservation_invalidRange_cex :
    cdtoPastEnd.endDate ≤ cdtoPastEnd.date ∧
    ReservationService.createReservation cexGetClient "gen-1" 100 cdtoPastEnd =
      (Except.error "Cannot create reservation with end date in the past", []) ∧
    "Cannot create reservation with end date in the past" ≠
      "End date must be after start date" := by
  decide

/-- C4 witness: at `now = 0`, with future dates, both operations fail
with the range error and persist nothing. -/
theorem reservation_invalidRange_witness :
    (∃ msg, ReservationService.createReservation cexGetClient "gen-1" 0 cdtoRange =
      (Except.error msg, [])) ∧
    ReservationService.updateReservation cexGetReservation "r1" udtoRange 0 0 0 =
      (Except.error "End date must be after start date", []) := by
  have h := reservation_invalidRange cexGetClient cexGetReservation "gen-1" 0 0 0 0 "r1"
    cdtoRange udtoRange cexClient storedReservation 200 150 rfl (by decide) (by decide)
    rfl rfl (by decide)
  exact ⟨h.1, h.2.2.2 (by decide) (by decide)⟩

/-! ## Claim C5 — status-only updates never fail -/

/-- C5: for an existing reservation, an update patch supplying neither
date nor guest count performs no validation and always succeeds,
persisting the merged record with `updatedAt` stamped by the last clock
read; in particular `confirmReservation` and `cancelReservation` always
succeed, whatever the stored dates. -/
theorem updateReservation_statusOnly (getReservation : String → Option Reservation)
    (id : String) (dto : UpdateReservationDTO) (r0 : Reservation) (now1 now2 now3 : Int)
    (hr : getReservation id = some r0)
    (hd : dto.date = none) (he : dto.endDate = none) (hg : dto.numberOfGuests = none) :
    ReservationService.updateReservation getReservation id dto now1 now2 now3 =
      (Except.ok (ReservationService.applyPatch r0 dto now3),
        [StorageOp.updateReservationOp id (ReservationService.applyPatch r0 dto now3)]) ∧
    ReservationService.confirmReservation getReservation id now1 now2 now3 =
      (Except.ok (ReservationService.applyPatch r0
          { status := some ReservationStatus.confirmed } now3),
        [StorageOp.updateReservationOp id (ReservationService.applyPatch r0
          { status := some ReservationStatus.confirmed } now3)]) ∧
    ReservationService.cancelReservation getReservation id now1 now2 now3 =
      (Except.ok (ReservationService.applyPatch r0
          { status := some ReservationStatus.cancelled } now3),
        [StorageOp.updateReservationOp id (ReservationService.applyPatch r0
          { status := some ReservationStatus.cancelled } now3)]) := by
  refine ⟨?_, ?_, ?_⟩
  · unfold ReservationService.updateReservation
    rw [hr]
    simp [hd, he, hg]
  · unfold ReservationService.confirmReservation ReservationService.updateReservation
    rw [hr]
    simp
  · unfold ReservationService.cancelReservation ReservationService.updateReservation
    rw [hr]
    simp

/-- C5 witness: `storedReservation` has dates `[50, 60]`, both in the
past of every clock value `10 ^ 6`; a status-only patch still succeeds. -/
theorem updateReservation_statusOnly_witness :
    ReservationService.updateReservation cexGetReservation "r1" udtoStatusOnly
        1000000 1000000 1000000 =
      (Except.ok (ReservationService.applyPatch storedReservation udtoStatusOnly 1000000),
        [StorageOp.updateReservationOp "r1"
          (ReservationService.applyPatch storedReservation udtoStatusOnly 1000000)]) ∧
    ReservationService.confirmReservation cexGetReservation "r1" 1000000 1000000 1000000 =
      (Except.ok (ReservationService.applyPatch storedReservation
          { status := some ReservationStatus.confirmed } 1000000),
        [StorageOp.updateReservationOp "r1"
          (ReservationService.applyPatch storedReservation
            { status := some ReservationStatus.confirmed } 1000000)]) := by
  have h := updateReservation_statusOnly cexGetReservation "r1" udtoStatusOnly
    storedReservation 1000000 1000000 1000000 (by decide) rfl rfl rfl
  exact ⟨h.1, h.2.1⟩

/-! ## Claim C6 — single `now` snapshot per validation call -/

/-- C6 (amended): `createReservation` does compare all its past-date
checks against its single `now` snapshot (its embedding reads the clock
once, mirroring the one `new Date()` in the source), and
`updateReservation` agrees with the spec's single-snapshot validator
exactly when all three of its clock reads return the same value; with an
advancing clock its outcome can differ from the single-snapshot one (see
the counterexample). -/
theorem updateReservation_singleNow_refines (getReservation : String → Option Reservation)
    (id : String) (dto : UpdateReservationDTO) (n : Int) :
    ReservationService.updateReservation getReservation id dto n n n =
      ReservationService.updateReservationSingleNow getReservation id dto n := rfl

/-- C6 counterexample: updating with `date = 100`, `endDate = 105` while
the clock advances from 100 (first check) to 110 (second check) throws
the past-end-date error, but the single-snapshot run at the call-start
value 100 succeeds — the call's outcome is not that of a single-snapshot
evaluation. -/
theorem updateReservation_singleNow_cex :
    ReservationService.updateReservation cexGetReservation "r1" udtoClocks 100 110 110 =
      (Except.error "Cannot update reservation with end date in the past", []) ∧
    ReservationService.updateReservation cexGetReservation "r1" udtoClocks 100 100 100 =
      (Except.ok (ReservationService.applyPatch storedReservation udtoClocks 100),
        [StorageOp.updateReservationOp "r1"
          (ReservationService.applyPatch storedReservation udtoClocks 100)]) ∧
    ReservationService.updateReservation cexGetReservation "r1" udtoClocks 100 110 110 ≠
      ReservationService.updateReservation cexGetReservation "r1" udtoClocks 100 100 100 := by
  decide

/-! ## Claim C8 — inactive reservations are irrelevant -/

/-- C8: removing the inactive reservations (status `cancelled` or
`completed`, or `endDate` already passed) from the input does not change
the availability result, and the current booking, when one exists, is
never a cancelled or completed reservation. -/
theorem calculateAvailabilityInfo_removeInactive (p : Property) (rs : List Reservation)
    (now : Int) :
    calculateAvailabilityInfo p (rs.filter fun r => !isInactive now r) now =
      calculateAvailabilityInfo p rs now ∧
    (currentBookingOf p rs now).all
      (fun r => decide (r.status ≠ ReservationStatus.cancelled ∧
        r.status ≠ ReservationStatus.completed)) = true := by
  constructor
  · unfold calculateAvailabilityInfo
    rw [currentBookingOf_removeInactive, nextBookingOf_removeInactive]
  · cases hc : currentBookingOf p rs now with
    | none => rfl
    | some r =>
        have hmem : r ∈ activeSorted p rs now := List.mem_of_find?_eq_some hc
        have hact := of_mem_activeSorted hmem
        simp only [isActiveFor, decide_eq_true_eq] at hact
        simp only [Option.all_some, decide_eq_true_eq]
        rcases hact.2.1 with h | h <;> simp [h]

/-! ## Claim C9 — calendar day classification -/

/-- The source's `find?` over the input list agrees with the spec's
"first reservation in input order whose half-open normalized interval
contains the day". -/
lemma find?_calendarMatches_eq_spec (day : Int) : ∀ rs : List Reservation,
    rs.find? (calendarMatches day) = specFirstReservation day rs
  | [] => rfl
  | r :: t => by
      unfold specFirstReservation
      by_cases h : normalizeDay r.date ≤ day ∧ day < normalizeDay r.endDate
      · rw [if_pos h]
        exact List.find?_cons_of_pos t (by simpa [calendarMatches] using h)
      · rw [if_neg h]
        rw [List.find?_cons_of_neg t (by simpa [calendarMatches] using h)]
        exact find?_calendarMatches_eq_spec day t

/-- C9: for every day produced by `generateCalendar`, `isReserved` holds
exactly when some reservation's half-open normalized interval
`[date, endDate)` contains the day; the attached reservation is the
first such reservation in input order; and `isAvailable` holds exactly
when the day is not past, not reserved, and the property's availability
is `available`. -/
theorem generateCalendar_day_spec (p : Property) (rs : List Reservation) (startDate : Int)
    (weeks : Nat) (todayRaw : Int) (day : CalendarDay)
    (hmem : day ∈ generateCalendar p rs startDate weeks todayRaw) :
    (day.isReserved = true ↔
      ∃ r ∈ rs, normalizeDay r.date ≤ day.date ∧ day.date < normalizeDay r.endDate) ∧
    day.reservation = specFirstReservation day.date rs ∧
    (day.isAvailable = true ↔
      (day.isPast = false ∧ day.isReserved = false ∧
        p.availability = AvailabilityStatus.available)) := by
  unfold generateCalendar at hmem
  rw [List.mem_map] at hmem
  obtain ⟨i, -, rfl⟩ := hmem
  refine ⟨?_, ?_, ?_⟩
  · simp [calendarDayAt, List.find?_isSome, calendarMatches]
  · simp only [calendarDayAt]
    exact find?_calendarMatches_eq_spec _ rs
  · simp only [calendarDayAt, Bool.and_eq_true, Bool.not_eq_true', decide_eq_true_eq,
      decide_eq_false_iff_not]
    tauto

/-- C9 witness: day index 2 of a one-week window over a single
reservation covering days 2 and 3. -/
theorem generateCalendar_day_spec_witness :
    ((calendarDayAt propAvailable [cancelledCovering] 0 0 2).isReserved = true ↔
      ∃ r ∈ [cancelledCovering],
        normalizeDay r.date ≤ (calendarDayAt propAvailable [cancelledCovering] 0 0 2).date ∧
        (calendarDayAt propAvailable [cancelledCovering] 0 0 2).date <
          normalizeDay r.endDate) ∧
    (calendarDayAt propAvailable [cancelledCovering] 0 0 2).reservation =
      specFirstReservation (calendarDayAt propAvailable [cancelledCovering] 0 0 2).date
        [cancelledCovering] ∧
    ((calendarDayAt propAvailable [cancelledCovering] 0 0 2).isAvailable = true ↔
      ((calendarDayAt propAvailable [cancelledCovering] 0 0 2).isPast = false ∧
        (calendarDayAt propAvailable [cancelledCovering] 0 0 2).isReserved = false ∧
        propAvailable.availability = AvailabilityStatus.available)) :=
  generateCalendar_day_spec propAvailable [cancelledCovering] 0 1 0 _ (by decide)

/-! ## Claim C10 — the calendar ignores reservation status -/

/-- C10: a calendar day covered only by cancelled or completed
reservations is still marked `isReserved = true` and
`isAvailable = false`, although those reservations are excluded from the
availability calculator (whose `currentBooking` stays empty for such a
list). -/
theorem generateCalendar_ignores_status (p : Property) (rs : List Reservation)
    (startDate : Int) (weeks : Nat) (todayRaw now : Int) (day : CalendarDay)
    (hmem : day ∈ generateCalendar p rs startDate weeks todayRaw)
    (hcov : ∃ r ∈ rs,
      (r.status = ReservationStatus.cancelled ∨ r.status = ReservationStatus.completed) ∧
      normalizeDay r.date ≤ day.date ∧ day.date < normalizeDay r.endDate)
    (hall : ∀ r ∈ rs,
      r.status = ReservationStatus.cancelled ∨ r.status = ReservationStatus.completed) :
    day.isReserved = true ∧ day.isAvailable = false ∧
    (calculateAvailabilityInfo p rs now).currentBooking = none := by
  have hcb : currentBookingOf p rs now = none := by
    unfold currentBookingOf activeSorted
    have hf : activeFilter p rs now = [] := by
      unfold activeFilter
      rw [List.filter_eq_nil_iff]
      intro a ha
      rcases hall a ha with h | h <;> simp [isActiveFor, h]
    rw [hf]
    rfl
  unfold generateCalendar at hmem
  rw [List.mem_map] at hmem
  obtain ⟨i, -, rfl⟩ := hmem
  simp only [calendarDayAt] at hcov ⊢
  have hsome : (rs.find? (calendarMatches
      (normalizeDay (startDate + (i : Int) * msPerDay)))).isSome = true := by
    rw [List.find?_isSome]
    obtain ⟨r, hr, -, h1, h2⟩ := hcov
    exact ⟨r, hr, by simp [calendarMatches]; exact ⟨h1, h2⟩⟩
  refine ⟨hsome, ?_, calculateAvailabilityInfo_currentBooking_of_none hcb⟩
  simp [hsome]

/-- C10 witness: a cancelled reservation covering day 2 makes that
calendar day reserved and unavailable, while the availability
calculator reports no current booking at a `now` inside the covered
interval. -/
theorem generateCalendar_ignores_status_witness :
    (calendarDayAt propAvailable [cancelledCovering] 0 0 2).isReserved = true ∧
    (calendarDayAt propAvailable [cancelledCovering] 0 0 2).isAvailable = false ∧
    (calculateAvailabilityInfo propAvailable [cancelledCovering]
      (2 * msPerDay + 5)).currentBooking = none :=
  generateCalendar_ignores_status propAvailable [cancelledCovering] 0 1 0 (2 * msPerDay + 5) _
    (by decide) (by decide) (by decide)
